import Mathlib

/-!
Verification of the Joint_CM_2026 ESP32-CAM firmware core (shallow embedding).

The definitions below are translated from the firmware sources:
`main.cpp` (v2.1) and the two companion iterations (v2.3 "part_000" and
v2 "part_001").  Machine `uint32_t` arithmetic is modelled on `Nat` with an
explicit modulus `U32 = 2^32`; the C expression `a - b` on `uint32_t`
becomes `wsub a b`.  Stateful firmware globals become explicit state
records, and hardware / filesystem effects become oracle parameters
(frame availability, file-open success, bytes written).
-/

set_option maxHeartbeats 1000000
set_option maxRecDepth 8000

/-- 2^32, the modulus of the firmware's `uint32_t` arithmetic. -/
def U32 : Nat := 4294967296

/-- `uint32_t` subtraction `a - b` (wrap-around), modelled on `Nat`. -/
def wsub (a b : Nat) : Nat := (a % U32 + U32 - b % U32) % U32

theorem wsub_eq_sub (a b : Nat) (hba : b ≤ a) (ha : a < U32) : wsub a b = a - b := by
  unfold wsub U32 at *
  omega

-- ===================== LOG BUFFER (main.cpp lines 94-169, 587-670) =====================

/-- `LOG_CAP`: number of slots in the diagnostic ring buffer (`main.cpp:95`). -/
def LOG_CAP : Nat := 320

/-- `LOG_LEN`: byte width of one slot including the NUL terminator (`main.cpp:96`). -/
def LOG_LEN : Nat := 220

/-- State of the log globals `g_log`, `g_log_head`, `g_log_seq`. -/
structure LogState where
  slots : Nat → String
  head : Nat
  seq : Nat

/-- `log_clear()` (`main.cpp:146`): head and seq to zero, all slots blank.
Also the boot state. -/
def logCleared : LogState := ⟨fun _ => "", 0, 0⟩

/-- The effect of `strncpy(dst, line, LOG_LEN - 1)` plus forced NUL at
`LOG_LEN - 1`: the stored string is the line truncated to 219 characters. -/
def log_trunc (line : String) : String := String.mk (line.data.take (LOG_LEN - 1))

/-- `log_pushf` (`main.cpp:154-169`), after formatting: copy the (truncated)
line into the head slot, advance head modulo `LOG_CAP`, increment `g_log_seq`
(a `uint32_t`). -/
def log_pushf (s : LogState) (line : String) : LogState :=
  { slots := Function.update s.slots s.head (log_trunc line)
    head := (s.head + 1) % LOG_CAP
    seq := (s.seq + 1) % U32 }

/-- A sequence of `log_pushf` calls. -/
def log_pushList (s : LogState) (ls : List String) : LogState := ls.foldl log_pushf s

/-- The index normalisation `int idx = head - (int)count; while (idx < 0) idx += LOG_CAP;`
(`main.cpp:596-597` and `646-647`). -/
def normIdx (head count : Nat) : Nat := (((head : Int) - count) % (LOG_CAP : Int)).toNat

/-- Reading `count` consecutive slots ending just before `head` (the common
loop body of `sse_send_recent` and the incremental part of `events_handler`). -/
def readBack (s : LogState) (count : Nat) : List String :=
  (List.range count).map (fun t => s.slots ((normIdx s.head count + t) % LOG_CAP))

/-- `sse_send_recent` (`main.cpp:587-607`) as the list of lines it sends:
at most `max_lines`, at most `seq`, oldest first, empty slots skipped. -/
def sse_send_recent (s : LogState) (maxLines : Nat) : List String :=
  (readBack s (min s.seq maxLines)).filter (fun l => decide (l ≠ ""))

/-- One incremental delivery step of `events_handler` (`main.cpp:633-661`):
given the reader's `last_seq`, send the new lines (capped at `LOG_CAP`,
empty slots skipped) and update `last_seq`. -/
def events_handler_step (s : LogState) (lastSeq : Nat) : List String × Nat :=
  if s.seq = lastSeq then ([], lastSeq)
  else
    ((readBack s (if LOG_CAP < wsub s.seq lastSeq then LOG_CAP else wsub s.seq lastSeq)).filter
        (fun l => decide (l ≠ "")),
     s.seq)

/-- One incremental delivery step of the v2.3 `events_handler`
(`part_000:839-855`): when `g_log_seq` moved, it sends only the single slot
at `(head - 1 + LOG_CAP) % LOG_CAP` and jumps `last_seq` to the current seq. -/
def events_handler_step_v23 (s : LogState) (lastSeq : Nat) : List String × Nat :=
  if s.seq = lastSeq then ([], lastSeq)
  else
    let idx := (s.head + (LOG_CAP - 1)) % LOG_CAP
    ((if s.slots idx ≠ "" then [s.slots idx] else []), s.seq)

-- ===================== ASCII / DECIMAL HELPERS =====================

/-- Fuel-driven decimal printer (most significant digit first). -/
def natDecimalF : Nat → Nat → List Nat
  | 0, _ => []
  | fuel + 1, n => if n < 10 then [48 + n] else natDecimalF fuel (n / 10) ++ [48 + n % 10]

/-- The ASCII decimal digit bytes that `snprintf("%u", n)` produces. -/
def natDecimal (n : Nat) : List Nat := natDecimalF (n + 1) n

/-- Decimal value of a digit-byte string (how a reader of the file recovers
the length from the header). -/
def parseNat (ds : List Nat) : Nat := ds.foldl (fun a d => a * 10 + (d - 48)) 0

def isDigitByte (d : Nat) : Bool := decide (48 ≤ d ∧ d ≤ 57)

/-- The bytes of an ASCII string literal. -/
def strBytes (s : String) : List Nat := s.data.map Char.toNat

/-- `bytesContain pat bs`: `pat` occurs as a contiguous run inside `bs`. -/
def bytesContain (pat : List Nat) : List Nat → Bool
  | [] => decide (pat = [])
  | b :: bs => decide ((b :: bs).take pat.length = pat) || bytesContain pat bs

-- ===================== RECORDING FILE FORMAT =====================

/-- Byte prefix of the frame header written by `write_video_frame`
(`main.cpp:279-280`): `--frame\r\nContent-Length: `. -/
def VFR_HDR : List Nat := strBytes "--frame\r\nContent-Length: "

/-- The bytes `write_video_frame` (`main.cpp:275-288`, identical in
`part_001:306-320`) appends to the open destination for one frame: header
with the decimal payload length, blank line, payload, CRLF. -/
def frameRecord (fb : List Nat) : List Nat :=
  VFR_HDR ++ natDecimal fb.length ++ [13, 10, 13, 10] ++ fb ++ [13, 10]

/-- The bytes the v2.3 `write_video_frame` (`part_000:333-343`) appends:
a Content-Type line but no Content-Length header. -/
def frameRecord_v23 (fb : List Nat) : List Nat :=
  strBytes "--frame\r\nContent-Type: image/jpeg\r\n\r\n" ++ fb ++ [13, 10]

/-- Modelled from the spec: the record format the specification describes,
`<part-delimiter>\r\nContent-Type: image/jpeg\r\nContent-Length: <n>\r\n\r\n<n bytes>\r\n`. -/
def specFrameRecord (delim fb : List Nat) : List Nat :=
  delim ++ strBytes "\r\nContent-Type: image/jpeg\r\nContent-Length: " ++
    natDecimal fb.length ++ [13, 10, 13, 10] ++ fb ++ [13, 10]

/-- Parser, stage 2: after the digits, expect `\r\n\r\n`, read exactly `n`
payload bytes, expect the closing `\r\n`. -/
def parseRecordLen (n : Nat) (r2 : List Nat) : Option (List Nat × List Nat) :=
  if r2.take 4 = [13, 10, 13, 10] then
    if n ≤ (r2.drop 4).length then
      if ((r2.drop 4).drop n).take 2 = [13, 10] then
        some ((r2.drop 4).take n, ((r2.drop 4).drop n).drop 2)
      else none
    else none
  else none

/-- Parser, stage 1: read the nonempty digit run after the header. -/
def parseRecordBody (r1 : List Nat) : Option (List Nat × List Nat) :=
  if r1.takeWhile isDigitByte = [] then none
  else parseRecordLen (parseNat (r1.takeWhile isDigitByte)) (r1.drop (r1.takeWhile isDigitByte).length)

/-- Parse one frame record by its explicit length header; returns the
payload and the remaining bytes. -/
def parseRecord (bs : List Nat) : Option (List Nat × List Nat) :=
  if bs.take VFR_HDR.length = VFR_HDR then parseRecordBody (bs.drop VFR_HDR.length)
  else none

/-- Parse a whole recording destination as consecutive frame records. -/
def parseVideoFile (fuel : Nat) (bs : List Nat) : Option (List (List Nat)) :=
  match fuel with
  | 0 => if bs = [] then some [] else none
  | fuel + 1 =>
      if bs = [] then some []
      else
        match parseRecord bs with
        | none => none
        | some pr => (parseVideoFile fuel pr.2).map (fun ps => pr.1 :: ps)

/-- `snprintf("%04u", n)`: decimal digits left-padded with zeros to width 4. -/
def pad4 (n : Nat) : String :=
  String.mk (List.replicate (4 - (natDecimal n).length) '0' ++ (natDecimal n).map Char.ofNat)

/-- The auto-incremented video file name (`main.cpp:258-259`). -/
def videoPathOf (n : Nat) : String := "/videos/VID_" ++ pad4 n ++ ".mjpeg"

/-- The auto-incremented photo file name (`main.cpp:236`). -/
def photoPathOf (n : Nat) : String := "/photos/IMG_" ++ pad4 n ++ ".jpg"

-- ===================== BUTTON (main.cpp lines 403-490) =====================

/-- `DEBOUNCE_MS` (`main.cpp:59`). -/
def DEBOUNCE_MS : Nat := 50

/-- `LONG_PRESS_MS` (`main.cpp:60`). -/
def LONG_PRESS_MS : Nat := 800

/-- The button globals (`main.cpp:109-113`). -/
structure BtnState where
  pressed : Bool
  pressTime : Nat
  releaseTime : Nat
  pending : Bool
  isLong : Bool
deriving DecidableEq

/-- `button_isr` (`main.cpp:403-418`): one interrupt invocation at time
`now` with the raw pin level (`pinPressed` is `digitalRead(BUTTON_PIN) == LOW`). -/
def button_isr (s : BtnState) (now : Nat) (pinPressed : Bool) : BtnState :=
  if pinPressed && !s.pressed then
    if DEBOUNCE_MS < wsub now s.releaseTime then
      { s with pressed := true, pressTime := now }
    else s
  else if !pinPressed && s.pressed then
    { s with pressed := false, releaseTime := now, pending := true,
             isLong := decide (LONG_PRESS_MS ≤ wsub now s.pressTime) }
  else s

/-- The v2.3 `button_isr` (`part_000:360-377`): identical except the release
branch is itself debounced against the press time. -/
def button_isr_v23 (s : BtnState) (now : Nat) (pinPressed : Bool) : BtnState :=
  if pinPressed && !s.pressed then
    if DEBOUNCE_MS < wsub now s.releaseTime then
      { s with pressed := true, pressTime := now }
    else s
  else if !pinPressed && s.pressed then
    if DEBOUNCE_MS < wsub now s.pressTime then
      { s with pressed := false, releaseTime := now,
               isLong := decide (LONG_PRESS_MS ≤ wsub now s.pressTime), pending := true }
    else s
  else s

-- ===================== CAPTURE / RECORD CONTROLLER =====================

/-- Observable actions of the controller paths: camera acquisitions for a
still capture (`capAcquire`) and for the recording loop (`recAcquire`),
photo save, recording start/stop, a frame appended to the destination, and
the consumption (clearing) of the pending button event. -/
inductive Act where
  | capAcquire | photoSave | recStart | recStop | recAcquire | recFrame | consume
deriving DecidableEq

/-- The recording / SD-card / button globals of `main.cpp` gathered into one
state record.  `video_file` is the byte content of the open destination. -/
structure Sys where
  btn : BtnState
  sd_available : Bool
  is_recording : Bool
  recording_start : Nat
  current_video_path : String
  video_file_open : Bool
  video_file : List Nat
  video_frame_count : Nat
  video_counter : Nat
  photo_counter : Nat
deriving DecidableEq

/-- `save_photo_to_sd` (`main.cpp:233-253`).  `fbValid` is `fb != NULL`,
`fbLen` is `fb->len`; `openOk` tells whether `SD_MMC.open` succeeds and
`written` is the byte count `file.write` reports.  Returns the state, the
success flag, and the filename that was formatted (if any). -/
def save_photo_to_sd (s : Sys) (fbValid : Bool) (fbLen : Nat) (openOk : Bool)
    (written : Nat) : Sys × Bool × Option String :=
  if !s.sd_available || !fbValid then (s, false, none)
  else
    let fname := photoPathOf s.photo_counter
    let s1 := { s with photo_counter := (s.photo_counter + 1) % U32 }
    if !openOk then (s1, false, some fname)
    else if written ≠ fbLen then (s1, false, some fname)
    else (s1, true, some fname)

/-- `start_video_recording` (`main.cpp:255-273`).  `openOk` tells whether
`SD_MMC.open` yields a usable file (`FILE_WRITE` creates it empty). -/
def start_video_recording (s : Sys) (now : Nat) (openOk : Bool) : Sys × Bool :=
  if !s.sd_available || s.is_recording then (s, false)
  else
    let s1 := { s with current_video_path := videoPathOf s.video_counter,
                       video_counter := (s.video_counter + 1) % U32 }
    if !openOk then (s1, false)
    else ({ s1 with video_file_open := true, video_file := [],
                    is_recording := true, recording_start := now,
                    video_frame_count := 0 }, true)

/-- `write_video_frame` (`main.cpp:275-288`): append one frame record to the
open destination and count it. -/
def write_video_frame (s : Sys) (fb : List Nat) : Sys × Bool :=
  if !s.is_recording || !s.video_file_open then (s, false)
  else ({ s with video_file := s.video_file ++ frameRecord fb,
                 video_frame_count := (s.video_frame_count + 1) % U32 }, true)

/-- The `[rec] stopped` summary line: frame count, duration (ms) and the
frames-per-second figure, modelled in exact rational arithmetic. -/
structure RecSummary where
  frames : Nat
  duration_ms : Nat
  fps : ℚ
deriving DecidableEq

/-- `stop_video_recording` (`main.cpp:290-303`): a no-op unless recording;
otherwise closes the file, emits the summary log line, clears the recording
flag and the frame counter. -/
def stop_video_recording (s : Sys) (now : Nat) : Sys × Option RecSummary :=
  if !s.is_recording then (s, none)
  else
    ({ s with video_file_open := false, is_recording := false, video_frame_count := 0 },
     some ⟨s.video_frame_count, wsub now s.recording_start,
           if 0 < wsub now s.recording_start then
             (s.video_frame_count * 1000 : ℚ) / (wsub now s.recording_start : Nat) else 0⟩)

/-- `F` iterations of the recording loop body, each appending one frame. -/
def appendFrames (s : Sys) (ps : List (List Nat)) : Sys :=
  ps.foldl (fun s p => (write_video_frame s p).1) s

/-- `process_button_events` (`main.cpp:420-490`).  Oracles: `capF` is the
frame the second `esp_camera_fb_get` returns in the photo path (the
preceding flush call is also modelled as an acquisition), `recF` the frame
in the recording loop, `recOpenOk`/`photoOpenOk` file-open results and `pw`
the byte count a photo write reports.  Returns the new state and the list
of observable actions, in program order. -/
def process_button_events (s : Sys) (now : Nat) (capF recF : Option (List Nat))
    (recOpenOk photoOpenOk : Bool) (pw : Nat) : Sys × List Act :=
  let r1 :=
    if s.btn.pressed && !s.is_recording then
      if LONG_PRESS_MS ≤ wsub now s.btn.pressTime then
        let r := start_video_recording s now recOpenOk
        (r.1, if r.2 then [Act.recStart] else [])
      else (s, ([] : List Act))
    else (s, [])
  let r2 :=
    if r1.1.is_recording && !r1.1.btn.pressed then
      ((stop_video_recording r1.1 now).1, [Act.recStop])
    else (r1.1, [])
  let r3 :=
    if r2.1.btn.pending then
      let s' := { r2.1 with btn := { r2.1.btn with pending := false } }
      if wsub s'.btn.releaseTime s'.btn.pressTime < LONG_PRESS_MS && !s'.is_recording then
        match capF with
        | none => (s', [Act.consume, Act.capAcquire, Act.capAcquire])
        | some fb =>
            let r := save_photo_to_sd s' true fb.length photoOpenOk pw
            (r.1, [Act.consume, Act.capAcquire, Act.capAcquire] ++
              (if r.2.1 then [Act.photoSave] else []))
      else (s', [Act.consume])
    else (r2.1, [])
  let r4 :=
    if r3.1.is_recording then
      match recF with
      | none => (r3.1, [Act.recAcquire])
      | some fb =>
          let r := write_video_frame r3.1 fb
          (r.1, [Act.recAcquire] ++ (if r.2 then [Act.recFrame] else []))
    else (r3.1, [])
  (r4.1, r1.2 ++ r2.2 ++ r3.2 ++ r4.2)

/-- `capture_handler` (`main.cpp:692-725`): the HTTP still-capture endpoint.
It performs no recording-state check: it always switches to the capture
configuration and issues two frame acquisitions (flush + capture); the
returned flag is whether a JPEG was served.  It never touches the recording
globals. -/
def capture_handler (s : Sys) (_flushF capF : Option (List Nat)) : Sys × List Act × Bool :=
  (s, [Act.capAcquire, Act.capAcquire], capF.isSome)

/-- One press / release / poll round for the exactly-once analysis: press
edge at `pt`, release edge at `rt`, then one `process_button_events` poll
at `rt` with the given oracles. -/
structure Round where
  pt : Nat
  rt : Nat
  capF : Option (List Nat)
  recF : Option (List Nat)
  recOpenOk : Bool
  photoOpenOk : Bool
  pw : Nat

def roundStep (s : Sys) (r : Round) : Sys × List Act :=
  let b1 := button_isr s.btn r.pt true
  let b2 := button_isr b1 r.rt false
  process_button_events { s with btn := b2 } r.rt r.capF r.recF r.recOpenOk r.photoOpenOk r.pw

def runRounds (s : Sys) (rs : List Round) : Sys × List Act :=
  match rs with
  | [] => (s, [])
  | r :: rs =>
      let x := roundStep s r
      let y := runRounds x.1 rs
      (y.1, x.2 ++ y.2)

/-- Edge-spacing discipline for a round list: each press comes strictly more
than `DEBOUNCE_MS` after the previous release, each release not before its
press, all times below 2^32. -/
def wellSpaced : Nat → List Round → Prop
  | _, [] => True
  | prevRel, r :: rs =>
      prevRel + DEBOUNCE_MS < r.pt ∧ r.pt ≤ r.rt ∧ r.rt < U32 ∧ wellSpaced r.rt rs

/-- A quiescent post-boot state: nothing pressed, nothing pending, no
recording open, SD card mounted. -/
def sysIdle : Sys :=
  { btn := ⟨false, 0, 0, false, false⟩, sd_available := true, is_recording := false,
    recording_start := 0, current_video_path := "", video_file_open := false,
    video_file := [], video_frame_count := 0, video_counter := 0, photo_counter := 0 }

/-- A state with a recording open and the button still held. -/
def sysRecording : Sys :=
  { btn := ⟨true, 100, 0, false, false⟩, sd_available := true, is_recording := true,
    recording_start := 1000, current_video_path := videoPathOf 0, video_file_open := true,
    video_file := [], video_frame_count := 3, video_counter := 1, photo_counter := 0 }

-- ===================== CONNECTIVITY SUPERVISOR (part_000 lines 566-609) =====================

/-- `WIFI_CHECK_INTERVAL_MS` (`part_000:133`). -/
def WIFI_CHECK_INTERVAL_MS : Nat := 10000

/-- `WIFI_RECONNECT_DELAY_MS` (`part_000:134`). -/
def WIFI_RECONNECT_DELAY_MS : Nat := 30000

/-- The connectivity-supervisor globals of `part_000`: `g_last_wifi_check_ms`,
`g_wifi_reconnect_attempts`, and the function-static `last_reconnect_attempt`.
All start at zero. -/
structure WifiState where
  lastCheck : Nat
  attempts : Nat
  lastAttempt : Nat
deriving DecidableEq

def wifiBoot : WifiState := ⟨0, 0, 0⟩

/-- `check_and_reconnect_wifi` (`part_000:566-609`): one poll at time `now`;
`connected` is `WiFi.status() == WL_CONNECTED` at entry, `reconnectOk` the
outcome of `connect_wifi_dual()` if it is attempted.  Returns the state and
the time of the reconnect attempt, if one was issued. -/
def check_and_reconnect_wifi (s : WifiState) (now : Nat) (connected reconnectOk : Bool) :
    WifiState × Option Nat :=
  if wsub now s.lastCheck < WIFI_CHECK_INTERVAL_MS then (s, none)
  else if connected then
    (if 0 < s.attempts then ⟨now, 0, s.lastAttempt⟩ else ⟨now, s.attempts, s.lastAttempt⟩, none)
  else if wsub now s.lastAttempt < WIFI_RECONNECT_DELAY_MS then
    (⟨now, s.attempts, s.lastAttempt⟩, none)
  else if reconnectOk then (⟨now, 0, now⟩, some now)
  else (⟨now, (s.attempts + 1) % U32, now⟩, some now)

/-- One health-check poll: its time, the link status seen, and the dual
reconnect outcome that `connect_wifi_dual` would deliver. -/
structure WifiPoll where
  time : Nat
  connected : Bool
  reconnectOk : Bool

/-- Run a sequence of polls, collecting the times of issued reconnect
attempts in order. -/
def runWifi (s : WifiState) (ps : List WifiPoll) : WifiState × List Nat :=
  match ps with
  | [] => (s, [])
  | p :: ps =>
      let x := check_and_reconnect_wifi s p.time p.connected p.reconnectOk
      let y := runWifi x.1 ps
      (y.1, x.2.toList ++ y.2)

/-- Poll times are nondecreasing, below 2^32, and not before `t0`. -/
def monoFrom : Nat → List WifiPoll → Prop
  | _, [] => True
  | t0, p :: ps => t0 ≤ p.time ∧ p.time < U32 ∧ monoFrom p.time ps

-- ===================== LOG BUFFER LEMMAS =====================

theorem log_pushList_append (s : LogState) (ls : List String) (l : String) :
    log_pushList s (ls ++ [l]) = log_pushf (log_pushList s ls) l := by
  simp [log_pushList]

theorem log_pushf_head_lt (s : LogState) (l : String) : (log_pushf s l).head < LOG_CAP := by
  simp only [log_pushf]
  exact Nat.mod_lt _ (by decide)

theorem log_pushList_head_lt (s : LogState) (ls : List String) (h : s.head < LOG_CAP) :
    (log_pushList s ls).head < LOG_CAP := by
  induction ls generalizing s with
  | nil => exact h
  | cons l ls ih => exact ih (log_pushf s l) (log_pushf_head_lt s l)

theorem log_pushList_seq (s : LogState) (ls : List String) (hs : s.seq < U32) :
    (log_pushList s ls).seq = (s.seq + ls.length) % U32 := by
  induction ls generalizing s with
  | nil => simp [log_pushList, Nat.mod_eq_of_lt hs]
  | cons l ls ih =>
      show (log_pushList (log_pushf s l) ls).seq = _
      rw [ih (log_pushf s l) (Nat.mod_lt _ (by decide))]
      simp only [log_pushf, U32, List.length_cons]
      omega

theorem normIdx_push (h m : Nat) (hm : m + 1 ≤ LOG_CAP) (hh : h < LOG_CAP) :
    normIdx ((h + 1) % LOG_CAP) (m + 1) = normIdx h m := by
  simp only [normIdx, LOG_CAP] at *
  omega

theorem normIdx_add_ne (h m t : Nat) (hm : m + 1 ≤ LOG_CAP) (hh : h < LOG_CAP)
    (ht : t < m) : (normIdx h m + t) % LOG_CAP ≠ h := by
  simp only [normIdx, LOG_CAP] at *
  omega

theorem normIdx_add_last (h m : Nat) (hm : m + 1 ≤ LOG_CAP) (hh : h < LOG_CAP) :
    (normIdx h m + m) % LOG_CAP = h := by
  simp only [normIdx, LOG_CAP] at *
  omega

/-- Reading `m + 1` slots back after a push splits into the old read of `m`
slots followed by the freshly written line. -/
theorem readBack_push (s : LogState) (l : String) (m : Nat)
    (hm : m + 1 ≤ LOG_CAP) (hh : s.head < LOG_CAP) :
    readBack (log_pushf s l) (m + 1) = readBack s m ++ [log_trunc l] := by
  have hh' : (log_pushf s l).head = (s.head + 1) % LOG_CAP := rfl
  have hsl : (log_pushf s l).slots = Function.update s.slots s.head (log_trunc l) := rfl
  unfold readBack
  rw [hh', hsl, normIdx_push s.head m hm hh]
  simp only [List.range_succ, List.map_append, List.map_cons, List.map_nil]
  have hmap : (List.range m).map
        (fun t => Function.update s.slots s.head (log_trunc l) ((normIdx s.head m + t) % LOG_CAP))
      = (List.range m).map (fun t => s.slots ((normIdx s.head m + t) % LOG_CAP)) :=
    List.map_congr_left (fun t ht =>
      Function.update_noteq (normIdx_add_ne s.head m t hm hh (List.mem_range.mp ht)) _ _)
  have hlast : Function.update s.slots s.head (log_trunc l) ((normIdx s.head m + m) % LOG_CAP)
      = log_trunc l := by
    rw [normIdx_add_last s.head m hm hh]
    exact Function.update_same _ _ _
  rw [hmap, hlast]

/-- After any sequence of pushes, reading `m ≤ LOG_CAP` slots back returns
the truncations of the `m` most recent lines, oldest first. -/
theorem readBack_pushList (s : LogState) (hh : s.head < LOG_CAP) (ls : List String) :
    ∀ m, m ≤ LOG_CAP → m ≤ ls.length →
      readBack (log_pushList s ls) m = (ls.drop (ls.length - m)).map log_trunc := by
  induction ls using List.reverseRecOn with
  | nil =>
      intro m _ hm
      have hm0 : m = 0 := by simpa using hm
      subst hm0
      simp [readBack]
  | append_singleton ls l ih =>
      intro m hcap hm
      match m with
      | 0 => simp [readBack]
      | m + 1 =>
          rw [log_pushList_append, readBack_push _ _ _ hcap (log_pushList_head_lt s ls hh),
            ih m (Nat.le_of_succ_le hcap) (by simpa using hm)]
          have hdrop : ls.length + 1 - (m + 1) = ls.length - m := by omega
          have hle : ls.length - m ≤ ls.length := Nat.sub_le _ _
          simp [hdrop, List.drop_append_of_le_length hle]

-- ===================== CLAIM C5 =====================

theorem mem_of_mem_drop_list {α : Type} {l : List α} {n : Nat} {a : α}
    (h : a ∈ l.drop n) : a ∈ l := List.drop_subset n l h

/-- C5 (amended): starting from the cleared 320-slot ring buffer, appending
K > 320 lines whose truncations are nonempty leaves exactly the most recent
320 truncated lines retrievable via `sse_send_recent 320`, in chronological
order, with the sequence counter advanced by exactly K (K < 2^32); moreover
each single append writes the truncated line to the head slot, advances head
modulo 320 and increments the sequence counter modulo 2^32.  (The original
claim fails for appended lines that are empty: the snapshot loop skips blank
slots, see the counterexample.) -/
theorem log_append_snapshot (ls : List String)
    (hK : LOG_CAP < ls.length) (hW : ls.length < U32)
    (hne : ∀ l ∈ ls, log_trunc l ≠ "") :
    sse_send_recent (log_pushList logCleared ls) LOG_CAP
        = (ls.drop (ls.length - LOG_CAP)).map log_trunc
      ∧ (log_pushList logCleared ls).seq = ls.length
      ∧ (∀ (s : LogState) (l : String),
          (log_pushf s l).slots s.head = log_trunc l
          ∧ (log_pushf s l).head = (s.head + 1) % LOG_CAP
          ∧ (log_pushf s l).seq = (s.seq + 1) % U32) := by
  have hseq : (log_pushList logCleared ls).seq = ls.length := by
    rw [log_pushList_seq logCleared ls (by simp [logCleared, U32])]
    simp only [logCleared, Nat.zero_add]
    exact Nat.mod_eq_of_lt hW
  refine ⟨?_, hseq, ?_⟩
  · unfold sse_send_recent
    rw [hseq]
    have hmin : min ls.length LOG_CAP = LOG_CAP := Nat.min_eq_right (Nat.le_of_lt hK)
    rw [hmin,
      readBack_pushList logCleared (by decide) ls LOG_CAP le_rfl (Nat.le_of_lt hK)]
    apply List.filter_eq_self.mpr
    intro a ha
    obtain ⟨l, hl, rfl⟩ := List.mem_map.mp ha
    exact decide_eq_true (hne l (mem_of_mem_drop_list hl))
  · intro s l
    exact ⟨Function.update_same _ _ _, rfl, rfl⟩

theorem log_append_snapshot_witness :
    sse_send_recent (log_pushList logCleared (List.replicate 321 "x")) LOG_CAP
      = ((List.replicate 321 "x").drop ((List.replicate 321 (α := String) "x").length - LOG_CAP)).map
          log_trunc := by
  have h := log_append_snapshot (List.replicate 321 "x")
    (by rw [List.length_replicate]; decide)
    (by rw [List.length_replicate]; decide)
    (fun l hl => by rw [List.eq_of_mem_replicate hl]; decide)
  exact h.1

/-- C5 counterexample: appending K = 321 > 320 empty lines to the cleared
buffer leaves `sse_send_recent 320` returning nothing at all — not the most
recent 320 records — because the snapshot loop tests `line[0] != '\0'` and
skips blank slots. -/
theorem log_append_snapshot_cex :
    sse_send_recent (log_pushList logCleared (List.replicate 321 "")) LOG_CAP = []
      ∧ LOG_CAP < (List.replicate 321 (α := String) "").length := by
  constructor
  · have hseq : (log_pushList logCleared (List.replicate 321 "")).seq = 321 := by
      rw [log_pushList_seq logCleared _ (by simp [logCleared, U32])]
      simp [logCleared, U32]
    unfold sse_send_recent
    rw [hseq]
    have hmin : min 321 LOG_CAP = LOG_CAP := by decide
    rw [hmin,
      readBack_pushList logCleared (by decide) _ LOG_CAP le_rfl
        (by rw [List.length_replicate]; decide)]
    apply List.filter_eq_nil_iff.mpr
    intro a ha
    obtain ⟨l, hl, rfl⟩ := List.mem_map.mp ha
    have hl' : l = "" := List.eq_of_mem_replicate (mem_of_mem_drop_list hl)
    subst hl'
    decide
  · rw [List.length_replicate]; decide

-- ===================== CLAIM C6 =====================

/-- C6 (amended): in the `main.cpp` events handler, a reader that last saw
sequence number S and polls after N further appends (with nonempty truncated
lines, no `uint32` wrap) receives exactly those N truncated records in
chronological order when N ≤ 320, and only the most recent 320 when N > 320;
its cursor moves to S + N.  (The original claim fails for the v2.3 variant,
whose step delivers only the single most recent record — see the
counterexample.) -/
theorem events_tail_step (s0 : LogState) (ls : List String)
    (hh : s0.head < LOG_CAP) (h1 : 1 ≤ ls.length)
    (hW : s0.seq + ls.length < U32)
    (hne : ∀ l ∈ ls, log_trunc l ≠ "") :
    events_handler_step (log_pushList s0 ls) s0.seq
      = ((ls.drop (ls.length - min ls.length LOG_CAP)).map log_trunc,
         s0.seq + ls.length) := by
  have hs0 : s0.seq < U32 := by omega
  have hseq : (log_pushList s0 ls).seq = s0.seq + ls.length := by
    rw [log_pushList_seq s0 ls hs0]
    exact Nat.mod_eq_of_lt hW
  unfold events_handler_step
  rw [hseq]
  rw [if_neg (by omega)]
  have hdiff0 : wsub (s0.seq + ls.length) s0.seq = ls.length := by
    rw [wsub_eq_sub _ _ (Nat.le_add_right _ _) hW]
    omega
  rw [hdiff0]
  have hif : (if LOG_CAP < ls.length then LOG_CAP else ls.length) = min ls.length LOG_CAP := by
    split <;> omega
  rw [hif,
    readBack_pushList s0 hh ls (min ls.length LOG_CAP) (Nat.min_le_right _ _)
      (Nat.min_le_left _ _)]
  have hfil : (((ls.drop (ls.length - min ls.length LOG_CAP)).map log_trunc).filter
      (fun l => decide (l ≠ ""))) = (ls.drop (ls.length - min ls.length LOG_CAP)).map log_trunc := by
    apply List.filter_eq_self.mpr
    intro a ha
    obtain ⟨l, hl, rfl⟩ := List.mem_map.mp ha
    exact decide_eq_true (hne l (mem_of_mem_drop_list hl))
  rw [hfil]

theorem events_tail_step_witness :
    events_handler_step (log_pushList logCleared ["a", "b"]) 0 = (["a", "b"], 2) := by
  have h := events_tail_step logCleared ["a", "b"] (by decide) (by decide)
    (by decide)
    (fun l hl => by
      simp only [List.mem_cons, List.not_mem_nil, or_false] at hl
      rcases hl with rfl | rfl <;> decide)
  rw [show (logCleared.seq) = 0 from rfl] at h
  rw [h]
  decide

/-- C6 counterexample: the v2.3 events handler's incremental step, polled
after two appends ("a" then "b") from sequence number 0, delivers only
["b"] — not the two appended records — because it reads a single slot at
`(head - 1 + LOG_CAP) % LOG_CAP` and jumps its cursor to the current seq. -/
theorem events_tail_v23_cex :
    events_handler_step_v23 (log_pushList logCleared ["a", "b"]) 0 = (["b"], 2)
      ∧ (["b"] : List String) ≠ ["a", "b"] := by
  exact ⟨by decide, by decide⟩

-- ===================== CLAIM C9 =====================

/-- C9: `stop_video_recording` is a no-op outside Recording — when no
recording is open it returns immediately, changes no state and emits no
summary line, so calling it twice in a row equals calling it once. -/
theorem stop_recording_noop :
    (∀ (s : Sys) (now : Nat), s.is_recording = false →
        stop_video_recording s now = (s, none))
      ∧ (∀ (s : Sys) (now now' : Nat),
          stop_video_recording (stop_video_recording s now).1 now'
            = ((stop_video_recording s now).1, none)) := by
  constructor
  · intro s now h
    simp [stop_video_recording, h]
  · intro s now now'
    have h : (stop_video_recording s now).1.is_recording = false := by
      unfold stop_video_recording
      by_cases hr : s.is_recording <;> simp [hr]
    generalize (stop_video_recording s now).1 = s2 at h ⊢
    simp [stop_video_recording, h]

theorem stop_recording_noop_witness :
    stop_video_recording sysIdle 5 = (sysIdle, none) :=
  stop_recording_noop.1 sysIdle 5 rfl

-- ===================== CLAIM C8 =====================

/-- C8: `start_video_recording` succeeds only when storage is available and
no recording is open; with storage unavailable or a recording already open
it is a rejected no-op returning `false` with every field of the state —
including the file-name counter — unchanged; on success it formats the
auto-incremented destination name, bumps the file-name counter, transitions
to Recording, records the start timestamp and resets the frame counter. -/
theorem start_recording_spec :
    (∀ (s : Sys) (now : Nat) (openOk : Bool),
        (start_video_recording s now openOk).2 = true →
          s.sd_available = true ∧ s.is_recording = false)
      ∧ (∀ (s : Sys) (now : Nat) (openOk : Bool),
          s.sd_available = false ∨ s.is_recording = true →
            start_video_recording s now openOk = (s, false))
      ∧ (∀ (s : Sys) (now : Nat), s.sd_available = true → s.is_recording = false →
          (start_video_recording s now true).2 = true
          ∧ (start_video_recording s now true).1.is_recording = true
          ∧ (start_video_recording s now true).1.recording_start = now
          ∧ (start_video_recording s now true).1.video_frame_count = 0
          ∧ (start_video_recording s now true).1.current_video_path
              = videoPathOf s.video_counter
          ∧ (start_video_recording s now true).1.video_counter
              = (s.video_counter + 1) % U32
          ∧ (start_video_recording s now true).1.video_file_open = true) := by
  refine ⟨?_, ?_, ?_⟩
  · intro s now ok h
    cases hsd : s.sd_available <;> cases hrec : s.is_recording <;>
      simp [start_video_recording, hsd, hrec] at h ⊢
  · intro s now ok h
    rcases h with h | h <;> simp [start_video_recording, h]
  · intro s now hsd hrec
    simp [start_video_recording, hsd, hrec]

theorem start_recording_spec_witness :
    start_video_recording sysRecording 5 true = (sysRecording, false)
      ∧ (start_video_recording sysIdle 5 true).1.is_recording = true
      ∧ (start_video_recording sysIdle 5 true).1.video_counter = 1 := by
  refine ⟨start_recording_spec.2.1 sysRecording 5 true (Or.inr rfl), ?_, ?_⟩
  · exact (start_recording_spec.2.2 sysIdle 5 rfl rfl).2.1
  · rw [(start_recording_spec.2.2 sysIdle 5 rfl rfl).2.2.2.2.2.1]
    decide

-- ===================== CLAIM C10 =====================

/-- C10: with storage available and a valid frame, every call to
`save_photo_to_sd` advances the photo file-name counter by exactly one and
formats the name from the pre-increment value, whether the save succeeds,
the file creation fails, or the write is partial. -/
theorem save_photo_consumes_number (s : Sys) (fbLen : Nat) (openOk : Bool) (written : Nat)
    (hsd : s.sd_available = true) :
    (save_photo_to_sd s true fbLen openOk written).1.photo_counter
        = (s.photo_counter + 1) % U32
      ∧ (save_photo_to_sd s true fbLen openOk written).2.2
        = some (photoPathOf s.photo_counter) := by
  cases openOk <;> by_cases hw : written = fbLen <;>
    simp [save_photo_to_sd, hsd, hw]

theorem save_photo_consumes_number_witness :
    (save_photo_to_sd sysIdle true 4 false 0).1.photo_counter
        = (sysIdle.photo_counter + 1) % U32
      ∧ (save_photo_to_sd sysIdle true 4 true 4).1.photo_counter
        = (sysIdle.photo_counter + 1) % U32 :=
  ⟨(save_photo_consumes_number sysIdle 4 false 0 rfl).1,
   (save_photo_consumes_number sysIdle 4 true 4 rfl).1⟩

-- ===================== CLAIM C4 =====================

/-- C4: the classification finalized at release is "hold" iff the held
duration, computed at release as `now - press-start`, is at least
`LONG_PRESS_MS` (800 ms), "click" iff strictly shorter; the release edge
also sets the pending flag and the release timestamp, and a press edge never
changes the pending flag or the classification (so classification is only
finalized at release).  The v2.3 interrupt handler agrees whenever the
release survives its extra debounce check. -/
theorem button_classification (s : BtnState) (now : Nat)
    (hp : s.pressed = true) (hle : s.pressTime ≤ now) (hw : now < U32) :
    ((button_isr s now false).isLong = true ↔ LONG_PRESS_MS ≤ now - s.pressTime)
      ∧ (button_isr s now false).pending = true
      ∧ (button_isr s now false).pressed = false
      ∧ (button_isr s now false).releaseTime = now
      ∧ (∀ (s' : BtnState) (t : Nat),
          (button_isr s' t true).pending = s'.pending
          ∧ (button_isr s' t true).isLong = s'.isLong)
      ∧ (∀ (s' : BtnState) (t : Nat), s'.pressed = true → s'.pressTime ≤ t → t < U32 →
          DEBOUNCE_MS < t - s'.pressTime →
          ((button_isr_v23 s' t false).isLong = true ↔ LONG_PRESS_MS ≤ t - s'.pressTime)) := by
  have hsub := wsub_eq_sub now s.pressTime hle hw
  refine ⟨?_, ?_, ?_, ?_, ?_, ?_⟩
  · simp [button_isr, hp, hsub]
  · simp [button_isr, hp]
  · simp [button_isr, hp]
  · simp [button_isr, hp]
  · intro s' t
    cases hsp : s'.pressed <;> simp [button_isr, hsp] <;> split <;> simp
  · intro s' t hp' hle' hw' hdb
    have hsub' := wsub_eq_sub t s'.pressTime hle' hw'
    simp [button_isr_v23, hp', hsub', hdb]

theorem button_classification_witness :
    (button_isr ⟨true, 100, 0, false, false⟩ 1000 false).isLong = true
      ∧ (button_isr ⟨true, 100, 0, false, false⟩ 1000 false).pending = true := by
  have h := button_classification ⟨true, 100, 0, false, false⟩ 1000 rfl (by decide)
    (by decide)
  exact ⟨h.1.mpr (by decide), h.2.1⟩

-- ===================== CLAIM C1 =====================

/-- C1 counterexample: `capture_handler` performs no recording check.  In a
state with a recording open it is not rejected — it issues its two camera
frame acquisitions (flush + capture) and serves the JPEG. -/
theorem capture_during_recording_cex :
    sysRecording.is_recording = true
      ∧ (capture_handler sysRecording (some [7]) (some [7])).2.1
          = [Act.capAcquire, Act.capAcquire]
      ∧ (capture_handler sysRecording (some [7]) (some [7])).2.2 = true :=
  ⟨rfl, rfl, rfl⟩

/-- C1 (amended): only the button path enforces camera exclusivity — while a
recording is open and the button is still held, `process_button_events`
performs no still-capture camera acquisition, saves no photo, does not stop
the recording, and leaves the recording open; the HTTP capture handler, by
contrast, acquires the camera regardless of recording state (see the
counterexample). -/
theorem button_capture_guard (s : Sys) (now : Nat) (capF recF : Option (List Nat))
    (recOpenOk photoOpenOk : Bool) (pw : Nat)
    (hrec : s.is_recording = true) (hpr : s.btn.pressed = true) :
    (process_button_events s now capF recF recOpenOk photoOpenOk pw).2.count Act.capAcquire = 0
      ∧ (process_button_events s now capF recF recOpenOk photoOpenOk pw).2.count Act.photoSave = 0
      ∧ (process_button_events s now capF recF recOpenOk photoOpenOk pw).2.count Act.recStop = 0
      ∧ (process_button_events s now capF recF recOpenOk photoOpenOk pw).1.is_recording
          = true := by
  unfold process_button_events
  by_cases hp : s.btn.pending <;> rcases recF with _ | fb <;>
    simp [hrec, hpr, hp, write_video_frame, List.count_append, List.count_cons,
      List.count_nil] <;>
    split <;> simp [hrec]

theorem button_capture_guard_witness :
    (process_button_events sysRecording 2000 (some [1]) (some [2]) true true 1).2.count
        Act.capAcquire = 0
      ∧ (process_button_events sysRecording 2000 (some [1]) (some [2]) true true 1).1.is_recording
          = true := by
  have h := button_capture_guard sysRecording 2000 (some [1]) (some [2]) true true 1 rfl rfl
  exact ⟨h.1, h.2.2.2⟩

-- ===================== CLAIM C7 =====================

theorem monoFrom_mono (t t' : Nat) (ps : List WifiPoll) (h : t ≤ t')
    (hm : monoFrom t' ps) : monoFrom t ps := by
  cases ps with
  | nil => trivial
  | cons p ps => exact ⟨le_trans h hm.1, hm.2.1, hm.2.2⟩

/-- Case analysis of one supervisor poll: either no attempt is issued and the
last-attempt timestamp is unchanged, or an attempt is issued at `now`, which
then becomes the new last-attempt timestamp and was at least
`WIFI_RECONNECT_DELAY_MS` after the previous one. -/
theorem check_wifi_cases (s : WifiState) (now : Nat) (conn ok : Bool) :
    ((check_and_reconnect_wifi s now conn ok).2 = none
        ∧ (check_and_reconnect_wifi s now conn ok).1.lastAttempt = s.lastAttempt)
      ∨ ((check_and_reconnect_wifi s now conn ok).2 = some now
          ∧ (check_and_reconnect_wifi s now conn ok).1.lastAttempt = now
          ∧ WIFI_RECONNECT_DELAY_MS ≤ wsub now s.lastAttempt) := by
  unfold check_and_reconnect_wifi
  by_cases hgate : wsub now s.lastCheck < WIFI_CHECK_INTERVAL_MS
  · left
    rw [if_pos hgate]
    exact ⟨rfl, rfl⟩
  · rw [if_neg hgate]
    by_cases hc : conn = true
    · left
      rw [if_pos hc]
      refine ⟨rfl, ?_⟩
      split <;> rfl
    · rw [if_neg hc]
      by_cases hdelay : wsub now s.lastAttempt < WIFI_RECONNECT_DELAY_MS
      · left
        rw [if_pos hdelay]
        exact ⟨rfl, rfl⟩
      · right
        rw [if_neg hdelay]
        by_cases hok : ok = true
        · rw [if_pos hok]
          exact ⟨rfl, rfl, by omega⟩
        · rw [if_neg hok]
          exact ⟨rfl, rfl, by omega⟩

theorem runWifi_chain (ps : List WifiPoll) :
    ∀ (s : WifiState), s.lastAttempt < U32 → monoFrom s.lastAttempt ps →
      List.Chain' (fun a b => a + WIFI_RECONNECT_DELAY_MS ≤ b) (runWifi s ps).2
        ∧ ∀ t ∈ (runWifi s ps).2, s.lastAttempt + WIFI_RECONNECT_DELAY_MS ≤ t := by
  induction ps with
  | nil => intro s _ _; simp [runWifi]
  | cons p ps ih =>
      intro s hsW hm
      obtain ⟨h1, h2, h3⟩ := hm
      have hrun : (runWifi s (p :: ps)).2
          = (check_and_reconnect_wifi s p.time p.connected p.reconnectOk).2.toList
            ++ (runWifi (check_and_reconnect_wifi s p.time p.connected p.reconnectOk).1 ps).2 :=
        rfl
      rw [hrun]
      rcases check_wifi_cases s p.time p.connected p.reconnectOk with ⟨ha, hb⟩ | ⟨ha, hb, hc⟩
      · rw [ha]
        have hres := ih (check_and_reconnect_wifi s p.time p.connected p.reconnectOk).1
          (by rw [hb]; exact hsW)
          (by rw [hb]; exact monoFrom_mono _ _ _ h1 h3)
        rw [hb] at hres
        simpa using hres
      · rw [ha]
        have hsp : s.lastAttempt + WIFI_RECONNECT_DELAY_MS ≤ p.time := by
          rw [wsub_eq_sub p.time s.lastAttempt (by omega) h2] at hc
          omega
        have hres := ih (check_and_reconnect_wifi s p.time p.connected p.reconnectOk).1
          (by rw [hb]; exact h2)
          (by rw [hb]; exact h3)
        rw [hb] at hres
        refine ⟨?_, ?_⟩
        · simp only [Option.toList_some, List.singleton_append]
          rw [List.chain'_cons']
          exact ⟨fun b hbmem => hres.2 b (List.mem_of_mem_head? hbmem), hres.1⟩
        · intro t ht
          simp only [Option.toList_some, List.singleton_append, List.mem_cons] at ht
          rcases ht with rfl | ht
          · exact hsp
          · have := hres.2 t ht
            omega

/-- C7: for every poll sequence with nondecreasing times, the connectivity
supervisor never issues two reconnect attempts less than
`WIFI_RECONNECT_DELAY_MS` (30 s) apart, no matter how often it is polled;
and the consecutive-attempt counter is reset to zero whenever a poll clears
the check-interval gate and observes the link connected, as well as
whenever an issued reconnect attempt succeeds. -/
theorem wifi_reconnect_spacing (ps : List WifiPoll) (hm : monoFrom 0 ps) :
    List.Chain' (fun a b => a + WIFI_RECONNECT_DELAY_MS ≤ b) (runWifi wifiBoot ps).2
      ∧ (∀ (s : WifiState) (now : Nat) (ok : Bool),
          WIFI_CHECK_INTERVAL_MS ≤ wsub now s.lastCheck →
          (check_and_reconnect_wifi s now true ok).1.attempts = 0)
      ∧ (∀ (s : WifiState) (now : Nat) (conn : Bool),
          (check_and_reconnect_wifi s now conn true).2.isSome = true →
          (check_and_reconnect_wifi s now conn true).1.attempts = 0) := by
  refine ⟨(runWifi_chain ps wifiBoot (by decide) hm).1, ?_, ?_⟩
  · intro s now ok hgate
    unfold check_and_reconnect_wifi
    rw [if_neg (by omega), if_pos rfl]
    split
    · rfl
    · show s.attempts = 0
      omega
  · intro s now conn hsome
    unfold check_and_reconnect_wifi at hsome ⊢
    by_cases hgate : wsub now s.lastCheck < WIFI_CHECK_INTERVAL_MS
    · rw [if_pos hgate] at hsome
      simp at hsome
    · rw [if_neg hgate] at hsome ⊢
      by_cases hc : conn = true
      · rw [if_pos hc] at hsome
        split at hsome <;> simp at hsome
      · rw [if_neg hc] at hsome ⊢
        by_cases hdelay : wsub now s.lastAttempt < WIFI_RECONNECT_DELAY_MS
        · rw [if_pos hdelay] at hsome
          simp at hsome
        · rw [if_neg hdelay] at hsome ⊢
          rw [if_pos rfl]

theorem wifi_reconnect_spacing_witness :
    List.Chain' (fun a b => a + WIFI_RECONNECT_DELAY_MS ≤ b)
        (runWifi wifiBoot [⟨40000, false, false⟩, ⟨80000, false, true⟩]).2
      ∧ (check_and_reconnect_wifi ⟨0, 5, 0⟩ 20000 true true).1.attempts = 0 := by
  have h := wifi_reconnect_spacing [⟨40000, false, false⟩, ⟨80000, false, true⟩]
    (by exact ⟨by decide, by decide, by decide, by decide, trivial⟩)
  exact ⟨h.1, h.2.1 ⟨0, 5, 0⟩ 20000 true (by decide)⟩

-- ===================== CLAIM C3 =====================

/-- One well-spaced press/release/poll round from a quiescent state consumes
the pending event exactly once and re-establishes the quiescent state. -/
theorem roundStep_consume (s : Sys) (r : Round) (R : Nat)
    (hpend : s.btn.pending = false) (hpr : s.btn.pressed = false)
    (hrec : s.is_recording = false) (hrel : s.btn.releaseTime = R)
    (h1 : R + DEBOUNCE_MS < r.pt) (h2 : r.pt ≤ r.rt) (h3 : r.rt < U32) :
    (roundStep s r).2.count Act.consume = 1
      ∧ (roundStep s r).1.btn.pending = false
      ∧ (roundStep s r).1.btn.pressed = false
      ∧ (roundStep s r).1.is_recording = false
      ∧ (roundStep s r).1.btn.releaseTime = r.rt := by
  have hw1 : wsub r.pt s.btn.releaseTime = r.pt - R := by
    rw [hrel]
    exact wsub_eq_sub _ _ (by omega) (by omega)
  have hb1 : button_isr s.btn r.pt true = { s.btn with pressed := true, pressTime := r.pt } := by
    unfold button_isr
    rw [hpr, hw1]
    rw [if_pos (by decide), if_pos (by omega)]
  have hb2 : button_isr { s.btn with pressed := true, pressTime := r.pt } r.rt false = { s.btn with pressed := false, pressTime := r.pt, releaseTime := r.rt, pending := true, isLong := decide (LONG_PRESS_MS ≤ wsub r.rt r.pt) } := by
    rfl
  have hstep : roundStep s r = process_button_events { s with btn := { s.btn with pressed := false, pressTime := r.pt, releaseTime := r.rt, pending := true, isLong := decide (LONG_PRESS_MS ≤ wsub r.rt r.pt) } } r.rt r.capF r.recF r.recOpenOk r.photoOpenOk r.pw := by
    simp only [roundStep]
    rw [hb1, hb2]
  rw [hstep]
  unfold process_button_events
  rcases r.capF with _ | fb <;>
    simp [hrec, save_photo_to_sd, List.count_append, List.count_cons, List.count_nil] <;>
    split_ifs <;>
    simp_all

theorem runRounds_consume (rs : List Round) :
    ∀ (s : Sys) (R : Nat), s.btn.pending = false → s.btn.pressed = false →
      s.is_recording = false → s.btn.releaseTime = R → wellSpaced R rs →
      (runRounds s rs).2.count Act.consume = rs.length
        ∧ (runRounds s rs).1.btn.pending = false := by
  induction rs with
  | nil =>
      intro s R hpend _ _ _ _
      exact ⟨by simp [runRounds], by simpa [runRounds] using hpend⟩
  | cons r rs ih =>
      intro s R hpend hpr hrec hrel hws
      simp only [wellSpaced] at hws
      obtain ⟨hw1, hw2, hw3, hws'⟩ := hws
      have hr := roundStep_consume s r R hpend hpr hrec hrel hw1 hw2 hw3
      have hrun2 : (runRounds s (r :: rs)).2
          = (roundStep s r).2 ++ (runRounds (roundStep s r).1 rs).2 := rfl
      have hrun1 : (runRounds s (r :: rs)).1 = (runRounds (roundStep s r).1 rs).1 := rfl
      have ihres := ih (roundStep s r).1 r.rt hr.2.1 hr.2.2.1 hr.2.2.2.1 hr.2.2.2.2 hws'
      constructor
      · rw [hrun2, List.count_append, hr.1, ihres.1]
        simp [Nat.add_comm]
      · rw [hrun1]
        exact ihres.2

/-- C3 (amended): for every sequence of press/release rounds in which each
press follows the previous release by strictly more than the debounce
interval (the interrupt handler's check is `now - last_release > 50`, so a
gap of exactly 50 ms drops the press — see the counterexample) and the
consumer polls once after each release, each press-release pair sets the
pending flag and the consumer observes and clears it exactly once — the
total number of consumptions equals the number of rounds, never zero or two
for a pair — and the flag is left clear.  In the embedding the consumer
clears the flag before acting: `Act.consume` precedes the capture actions
in each poll's action list. -/
theorem button_event_exactly_once (rs : List Round) (hws : wellSpaced 0 rs) :
    (runRounds sysIdle rs).2.count Act.consume = rs.length
      ∧ (runRounds sysIdle rs).1.btn.pending = false :=
  runRounds_consume rs sysIdle 0 rfl rfl rfl rfl hws

theorem button_event_exactly_once_witness :
    (runRounds sysIdle [⟨100, 300, none, none, false, false, 0⟩]).2.count Act.consume = 1 := by
  have h := button_event_exactly_once [⟨100, 300, none, none, false, false, 0⟩]
    ⟨by decide, by decide, by decide, trivial⟩
  simpa using h.1

/-- C3 counterexample: two press-release pairs whose consecutive edges are
separated by at least (here: exactly) the 50 ms debounce interval, with a
poll after each release.  The second press arrives exactly 50 ms after the
first release, fails the strict `> DEBOUNCE_MS` check, and its pair is
never reported: only one event is consumed, not two. -/
theorem button_event_cex :
    (runRounds sysIdle
        [⟨100, 300, none, none, false, false, 0⟩,
         ⟨350, 450, none, none, false, false, 0⟩]).2.count Act.consume = 1
      ∧ (350 : Nat) - 300 = DEBOUNCE_MS ∧ (1 : Nat) ≠ 2 :=
  ⟨by decide, by decide, by decide⟩

-- ===================== CLAIM C2 =====================

theorem take_len_append {α : Type} (l1 l2 : List α) (n : Nat) (h : n = l1.length) :
    (l1 ++ l2).take n = l1 := by
  subst h
  simp

theorem drop_len_append {α : Type} (l1 l2 : List α) (n : Nat) (h : n = l1.length) :
    (l1 ++ l2).drop n = l2 := by
  subst h
  simp

theorem natDecimalF_irrel (n : Nat) : ∀ f, n < f → natDecimalF f n = natDecimal n := by
  induction n using Nat.strong_induction_on with
  | _ n ih =>
      intro f hf
      cases f with
      | zero => omega
      | succ f' =>
          by_cases h10 : n < 10
          · simp [natDecimal, natDecimalF, h10]
          · have hdiv : n / 10 < n := Nat.div_lt_self (by omega) (by omega)
            show (if n < 10 then [48 + n] else natDecimalF f' (n / 10) ++ [48 + n % 10]) = _
            rw [if_neg h10, ih (n / 10) hdiv f' (by omega)]
            show _ = (if n < 10 then [48 + n] else natDecimalF n (n / 10) ++ [48 + n % 10])
            rw [if_neg h10, ih (n / 10) hdiv n (by omega)]

theorem natDecimal_unfold (n : Nat) :
    natDecimal n = if n < 10 then [48 + n] else natDecimal (n / 10) ++ [48 + n % 10] := by
  by_cases h10 : n < 10
  · simp [natDecimal, natDecimalF, h10]
  · have hdiv : n / 10 < n := Nat.div_lt_self (by omega) (by omega)
    show (if n < 10 then [48 + n] else natDecimalF n (n / 10) ++ [48 + n % 10]) = _
    rw [if_neg h10, if_neg h10, natDecimalF_irrel (n / 10) n (by omega)]

theorem natDecimal_digits (n : Nat) : ∀ d ∈ natDecimal n, isDigitByte d = true := by
  induction n using Nat.strong_induction_on with
  | _ n ih =>
      intro d hd
      rw [natDecimal_unfold] at hd
      by_cases h10 : n < 10
      · rw [if_pos h10] at hd
        simp only [List.mem_singleton] at hd
        subst hd
        simp only [isDigitByte, decide_eq_true_eq]
        omega
      · rw [if_neg h10] at hd
        rcases List.mem_append.mp hd with hd' | hd'
        · exact ih (n / 10) (Nat.div_lt_self (by omega) (by omega)) d hd'
        · simp only [List.mem_singleton] at hd'
          subst hd'
          simp only [isDigitByte, decide_eq_true_eq]
          omega

theorem natDecimal_ne_nil (n : Nat) : natDecimal n ≠ [] := by
  rw [natDecimal_unfold]
  split <;> simp

theorem parseNat_append_digit (xs : List Nat) (d : Nat) :
    parseNat (xs ++ [d]) = parseNat xs * 10 + (d - 48) := by
  simp [parseNat, List.foldl_append]

theorem parseNat_natDecimal (n : Nat) : parseNat (natDecimal n) = n := by
  induction n using Nat.strong_induction_on with
  | _ n ih =>
      rw [natDecimal_unfold]
      by_cases h10 : n < 10
      · rw [if_pos h10]
        simp [parseNat]
      · rw [if_neg h10, parseNat_append_digit,
          ih (n / 10) (Nat.div_lt_self (by omega) (by omega))]
        omega

theorem takeWhile_digits_append (xs ys : List Nat) (hxs : ∀ x ∈ xs, isDigitByte x = true) :
    (xs ++ 13 :: ys).takeWhile isDigitByte = xs := by
  induction xs with
  | nil => simp [List.takeWhile_cons, isDigitByte]
  | cons x xs ih =>
      have hx : isDigitByte x = true := hxs x (List.mem_cons_self x xs)
      simp [List.takeWhile_cons, hx, ih (fun y hy => hxs y (List.mem_cons_of_mem x hy))]

theorem parseRecordLen_spec (p rest : List Nat) :
    parseRecordLen p.length (13 :: 10 :: 13 :: 10 :: (p ++ 13 :: 10 :: rest)) = some (p, rest) := by
  unfold parseRecordLen
  rw [show List.take 4 (13 :: 10 :: 13 :: 10 :: (p ++ 13 :: 10 :: rest)) = [13, 10, 13, 10]
      from rfl,
    if_pos rfl,
    show List.drop 4 (13 :: 10 :: 13 :: 10 :: (p ++ 13 :: 10 :: rest)) = p ++ 13 :: 10 :: rest
      from rfl]
  rw [if_pos (by simp), drop_len_append _ _ _ rfl, take_len_append _ _ _ rfl]
  rw [show List.take 2 (13 :: 10 :: rest) = [13, 10] from rfl, if_pos rfl]
  rfl

theorem parseRecord_frameRecord (p rest : List Nat) :
    parseRecord (frameRecord p ++ rest) = some (p, rest) := by
  have hT : frameRecord p ++ rest
      = VFR_HDR ++ (natDecimal p.length ++ (13 :: 10 :: 13 :: 10 :: (p ++ (13 :: 10 :: rest)))) := by
    simp [frameRecord]
  rw [hT]
  unfold parseRecord
  rw [take_len_append _ _ _ rfl, if_pos rfl, drop_len_append _ _ _ rfl]
  unfold parseRecordBody
  rw [takeWhile_digits_append _ _ (natDecimal_digits p.length)]
  rw [if_neg (natDecimal_ne_nil p.length)]
  rw [parseNat_natDecimal, drop_len_append _ _ _ rfl]
  exact parseRecordLen_spec p rest

theorem frameRecord_append_ne_nil (p rest : List Nat) : frameRecord p ++ rest ≠ [] := by
  intro h
  have hlen := congrArg List.length h
  have h25 : VFR_HDR.length = 25 := by decide
  simp [frameRecord, h25] at hlen

/-- A destination built of consecutive frame records parses back to exactly
the list of payloads. -/
theorem parseVideoFile_join (ps : List (List Nat)) :
    parseVideoFile ps.length ((ps.map frameRecord).flatten) = some ps := by
  induction ps with
  | nil => simp [parseVideoFile]
  | cons p ps ih =>
      show parseVideoFile (ps.length + 1) ((frameRecord p ++ (ps.map frameRecord).flatten)) = _
      simp only [parseVideoFile]
      rw [if_neg (frameRecord_append_ne_nil p _), parseRecord_frameRecord]
      simp [ih]

theorem appendFrames_spec (ps : List (List Nat)) :
    ∀ (s : Sys), s.is_recording = true → s.video_file_open = true →
      s.video_frame_count < U32 →
      (appendFrames s ps).video_file = s.video_file ++ (ps.map frameRecord).flatten
        ∧ (appendFrames s ps).video_frame_count = (s.video_frame_count + ps.length) % U32
        ∧ (appendFrames s ps).is_recording = true
        ∧ (appendFrames s ps).video_file_open = true
        ∧ (appendFrames s ps).recording_start = s.recording_start := by
  induction ps with
  | nil =>
      intro s h1 h2 hc
      simp [appendFrames, Nat.mod_eq_of_lt hc, h1, h2]
  | cons p ps ih =>
      intro s h1 h2 hc
      have hw : (write_video_frame s p).1
          = { s with video_file := s.video_file ++ frameRecord p,
                     video_frame_count := (s.video_frame_count + 1) % U32 } := by
        simp [write_video_frame, h1, h2]
      have hstep : appendFrames s (p :: ps) = appendFrames (write_video_frame s p).1 ps := rfl
      have hres := ih (write_video_frame s p).1 (by rw [hw]; exact h1) (by rw [hw]; exact h2)
        (by rw [hw]; exact Nat.mod_lt _ (by decide))
      rw [hw] at hres
      rw [hstep, hw]
      refine ⟨?_, ?_, hres.2.2.1, hres.2.2.2.1, hres.2.2.2.2⟩
      · rw [hres.1]
        simp
      · rw [hres.2.1]
        show ((s.video_frame_count + 1) % U32 + ps.length) % U32
            = (s.video_frame_count + (p :: ps).length) % U32
        simp only [List.length_cons, U32]
        omega

theorem session_core (ps : List (List Nat)) (s1 : Sys) (t1 : Nat)
    (h1 : s1.is_recording = true) (h2 : s1.video_file_open = true)
    (h3 : s1.video_file = []) (h4 : s1.video_frame_count = 0)
    (hW : t1 < U32) (hd : s1.recording_start < t1) (hF : ps.length < U32) :
    (appendFrames s1 ps).video_file = (ps.map frameRecord).flatten
      ∧ (stop_video_recording (appendFrames s1 ps) t1).2
          = some ⟨ps.length, t1 - s1.recording_start,
              (ps.length * 1000 : ℚ) / ((t1 - s1.recording_start : Nat) : ℚ)⟩
      ∧ (stop_video_recording (appendFrames s1 ps) t1).1.is_recording = false := by
  have happ := appendFrames_spec ps s1 h1 h2 (by rw [h4]; simp [U32])
  have hfile : (appendFrames s1 ps).video_file = (ps.map frameRecord).flatten := by
    rw [happ.1, h3]
    simp
  have hcount : (appendFrames s1 ps).video_frame_count = ps.length := by
    rw [happ.2.1, h4]
    simpa using Nat.mod_eq_of_lt hF
  have hdur : wsub t1 (appendFrames s1 ps).recording_start = t1 - s1.recording_start := by
    rw [happ.2.2.2.2]
    exact wsub_eq_sub _ _ (by omega) hW
  refine ⟨hfile, ?_, ?_⟩
  · unfold stop_video_recording
    rw [if_neg (by rw [happ.2.2.1]; simp)]
    rw [hdur, hcount, if_pos (by omega)]
  · unfold stop_video_recording
    rw [if_neg (by rw [happ.2.2.1]; simp)]

/-- C2 (amended): after `start_recording` at `t0`, `F` calls to
`append_recording_frame` with payloads `ps`, and `stop_recording` at
`t1 > t0`, the destination contains exactly the `F` frame records
`--frame\r\nContent-Length: <n>\r\n\r\n<n bytes>\r\n` in order — with no
`Content-Type` header, unlike the claimed format (see the counterexample) —
each independently parsable by its length header (the parser recovers
exactly the `F` payloads), and the logged summary reports `F` frames over
`t1 - t0` ms with a rate that, in exact rational arithmetic, equals
`F / elapsed-seconds`. -/
theorem recording_session_format (ps : List (List Nat)) (s : Sys) (t0 t1 : Nat)
    (hsd : s.sd_available = true) (hnr : s.is_recording = false)
    (hW : t1 < U32) (hd : t0 < t1) (hF : ps.length < U32) :
    (appendFrames (start_video_recording s t0 true).1 ps).video_file
        = (ps.map frameRecord).flatten
      ∧ parseVideoFile ps.length
          ((appendFrames (start_video_recording s t0 true).1 ps).video_file) = some ps
      ∧ (stop_video_recording (appendFrames (start_video_recording s t0 true).1 ps) t1).2
          = some ⟨ps.length, t1 - t0, (ps.length * 1000 : ℚ) / ((t1 - t0 : Nat) : ℚ)⟩
      ∧ ((ps.length * 1000 : ℚ) / ((t1 - t0 : Nat) : ℚ)
          = (ps.length : ℚ) / (((t1 - t0 : Nat) : ℚ) / 1000))
      ∧ (stop_video_recording (appendFrames (start_video_recording s t0 true).1 ps)
            t1).1.is_recording = false := by
  have hs1 : (start_video_recording s t0 true).1
      = { s with current_video_path := videoPathOf s.video_counter,
                 video_counter := (s.video_counter + 1) % U32, video_file_open := true,
                 video_file := [], is_recording := true, recording_start := t0,
                 video_frame_count := 0 } := by
    simp [start_video_recording, hsd, hnr]
  rw [hs1]
  have hcore := session_core ps
    { s with current_video_path := videoPathOf s.video_counter,
             video_counter := (s.video_counter + 1) % U32, video_file_open := true,
             video_file := [], is_recording := true, recording_start := t0,
             video_frame_count := 0 }
    t1 rfl rfl rfl rfl hW hd hF
  refine ⟨hcore.1, ?_, hcore.2.1, ?_, hcore.2.2⟩
  · rw [hcore.1]
    exact parseVideoFile_join ps
  · have hne : ((t1 - t0 : Nat) : ℚ) ≠ 0 := by
      rw [Nat.cast_ne_zero]
      omega
    field_simp

theorem recording_session_format_witness :
    parseVideoFile 2
        ((appendFrames (start_video_recording sysIdle 0 true).1 [[7], [8, 9]]).video_file)
      = some [[7], [8, 9]] := by
  have h := recording_session_format [[7], [8, 9]] sysIdle 0 1000 rfl rfl (by decide)
    (by decide) (by decide)
  exact h.2.1

/-- C2 counterexample: the frame record `write_video_frame` writes contains
no `Content-Type` header at all, so it is not of the claimed form
`<part-delimiter>\r\nContent-Type: image/jpeg\r\nContent-Length: <n>\r\n\r\n<n bytes>\r\n`
(shown for the one-byte payload `[255]` and part delimiter `--frame`); the
v2.3 variant's record, conversely, carries no `Content-Length` header, so it
is not parsable by a length header. -/
theorem video_record_format_cex :
    bytesContain (strBytes "Content-Type") (frameRecord [255]) = false
      ∧ frameRecord [255] ≠ specFrameRecord (strBytes "--frame") [255]
      ∧ bytesContain (strBytes "Content-Length") (frameRecord_v23 [255]) = false :=
  ⟨by decide, by decide, by decide⟩
